import Mathlib

/-!
Verification of the dynamic query-construction and access-control pipeline
of the janus REST-endpoint generator.

The definitions below are a shallow embedding of the Rust source:
* `src/lib.rs` — verb / permission enums and per-entity configuration,
* `src/endpoints.rs` — the default SELECT / UPDATE / DELETE builders and the
  per-verb owner-predicate resolution,
* `src/extractors.rs` — bearer-token verification and the `AuthUser` /
  `AdminUser` request guards.

Machine strings are modelled by Lean `String` (the source only manipulates
ASCII query text, where Rust's byte indices coincide with character counts);
Rust's `query.chars().take(n)` becomes `takeChars`.  The database and the
remote JWKS endpoint are external collaborators and enter as explicit
function parameters.
-/

namespace Janus

/-- Embedding of the `FieldValue` tagged union (the variant set is fixed by the
exhaustive `match` in `src/endpoints.rs`).  The query builder never inspects
payloads except to bind them positionally, so the UUID / DATE / FLOAT payloads
are modelled by opaque numeric stand-ins. -/
inductive FieldValue where
  | UUID (v : Nat)
  | STRING (v : String)
  | INTEGER (v : Int)
  | DATE (v : Int)
  | BOOLEAN (v : Bool)
  | FLOAT (v : Int)
deriving DecidableEq

/-- Embedding of `EndpointVerb` from `src/lib.rs`. -/
inductive EndpointVerb where
  | GET
  | POST
  | PUT
  | DELETE
deriving DecidableEq

/-- Embedding of `ObjectPermission` from `src/lib.rs`. -/
inductive ObjectPermission where
  | ALL
  | OWNER
deriving DecidableEq

/-- Embedding of `AccessPermission` from `src/lib.rs`. -/
inductive AccessPermission where
  | ANY
  | AUTHENTICATED
  | ADMIN
deriving DecidableEq

/-- The per-entity configuration consulted by the handlers: the
`get_object_permissions` and `is_custom` methods of the `CrudConfig` trait
(`src/lib.rs`). -/
structure CrudConfigData where
  get_object_permissions : EndpointVerb → ObjectPermission
  is_custom : EndpointVerb → Bool

/-- Rust `query.chars().take(n).collect::<String>()`. -/
def takeChars (s : String) (n : Nat) : String := ⟨s.data.take n⟩

/-- Rust `&key[n..]` (character based; the source only slices ASCII). -/
def dropChars (s : String) (n : Nat) : String := ⟨s.data.drop n⟩

/-- The single filter predicate emitted for a key at parameter index `count`,
from the suffix dispatch in `read` (`src/endpoints.rs` lines 254-264):
keys of byte length `< 3` fall to equality, otherwise the last three
characters select the operator and are stripped from the column name. -/
def predStr (key : String) (count : Nat) : String :=
  if key.length < 3 then
    key ++ " = $" ++ toString count
  else if dropChars key (key.length - 3) = "_gt" then
    takeChars key (key.length - 3) ++ " > $" ++ toString count
  else if dropChars key (key.length - 3) = "_lt" then
    takeChars key (key.length - 3) ++ " < $" ++ toString count
  else if dropChars key (key.length - 3) = "_ge" then
    takeChars key (key.length - 3) ++ " >= $" ++ toString count
  else if dropChars key (key.length - 3) = "_le" then
    takeChars key (key.length - 3) ++ " <= $" ++ toString count
  else key ++ " = $" ++ toString count

/-- Loop state of the filter loop in `read` (`src/endpoints.rs` lines
226-268): the accumulated query text, the next parameter index, the current
order column and direction, and the accumulated bindings. -/
structure ReadAcc where
  query : String
  count : Nat
  order_col : String
  order_dir : String
  bindings : List FieldValue
deriving DecidableEq

/-- The `for (key, value) in filters.key_value_pairs()` loop of `read`
(`src/endpoints.rs` lines 236-268): `order_by` / `order_dir` are consumed as
control keys (a string value overrides the order column, the exact value
`"asc"` flips the direction), every other pair appends its predicate and
`" AND "`, pushes its binding and advances the parameter counter. -/
def readFold : List (String × FieldValue) → ReadAcc → ReadAcc
  | [], acc => acc
  | (key, value) :: rest, acc =>
    if key = "order_by" then
      match value with
      | .STRING v => readFold rest { acc with order_col := v }
      | _ => readFold rest acc
    else if key = "order_dir" then
      match value with
      | .STRING v =>
        if v = "asc" then readFold rest { acc with order_dir := "ASC" }
        else readFold rest acc
      | _ => readFold rest acc
    else
      readFold rest
        { acc with
          query := acc.query ++ predStr key acc.count ++ " AND ",
          count := acc.count + 1,
          bindings := acc.bindings ++ [value] }

/-- Result of the default SELECT builder: the final SQL text, the bind list in
bind order (the owner id, bound first, is a string), and the resolved order
column and direction. -/
structure ReadResult where
  query : String
  bindings : List FieldValue
  order_col : String
  order_dir : String
deriving DecidableEq

/-- The default SELECT builder `read` (`src/endpoints.rs` lines 224-295):
starts from `SELECT * FROM <table> WHERE `, emits the owner predicate first
when a `user_id` is supplied, folds the filter pairs, unconditionally removes
the last five characters, and appends the ORDER BY clause.  Bindings are the
owner id (if any) followed by the filter values in order. -/
def read (table : String) (filters : List (String × FieldValue))
    (user_id : Option String) : ReadResult :=
  let query := "SELECT * FROM " ++ table ++ " WHERE "
  let count := 1
  let (query, count) :=
    match user_id with
    | some _ => (query ++ "user_id = $" ++ toString count ++ " AND ", count + 1)
    | none => (query, count)
  let acc := readFold filters ⟨query, count, "id", "DESC", []⟩
  let query := takeChars acc.query (acc.query.length - 5)
  let query := query ++ " ORDER BY " ++ acc.order_col ++ " " ++ acc.order_dir
  let bindings :=
    match user_id with
    | some uid => FieldValue.STRING uid :: acc.bindings
    | none => acc.bindings
  ⟨query, bindings, acc.order_col, acc.order_dir⟩

/-- Execution of the built SELECT against an abstract database: a database
error is mapped to status 500 (`src/endpoints.rs` lines 288-292), otherwise
the fetched rows are returned. -/
def readExec {T : Type} (db : String → List FieldValue → Except Unit (List T))
    (table : String) (filters : List (String × FieldValue))
    (user_id : Option String) : Except Nat (List T) :=
  let r := read table filters user_id
  match db r.query r.bindings with
  | .error _ => .error 500
  | .ok rows => .ok rows

/-- The SET-clause loop of `update` (`src/endpoints.rs` lines 335-339): each
field first increments the counter and then appends `<key> = $<count>, `. -/
def updateFold : List (String × FieldValue) → String → Nat → String × Nat
  | [], query, count => (query, count)
  | (key, _) :: rest, query, count =>
    updateFold rest (query ++ key ++ " = $" ++ toString (count + 1) ++ ", ") (count + 1)

/-- Result of the default UPDATE builder: SQL text and bind list in bind
order (field values, then the id, then the optional owner id). -/
structure UpdateResult where
  query : String
  bindings : List FieldValue
deriving DecidableEq

/-- The default UPDATE builder `update` (`src/endpoints.rs` lines 333-362):
emits the SET clause, removes the trailing two characters, appends
`WHERE id = $(count+1)` and, when an owner id is supplied,
`AND user_id = $(count+2)`; binds the values, then the id, then the owner. -/
def update (table : String) (id : Nat) (values : List (String × FieldValue))
    (user_id : Option String) : UpdateResult :=
  let (query, count) := updateFold values ("UPDATE " ++ table ++ " SET ") 0
  let query := takeChars query (query.length - 2)
  let query := query ++ " WHERE id = $" ++ toString (count + 1)
  let query :=
    match user_id with
    | some _ => query ++ " AND user_id = $" ++ toString (count + 2)
    | none => query
  let bindings := values.map Prod.snd ++ [FieldValue.UUID id]
  let bindings :=
    match user_id with
    | some uid => bindings ++ [FieldValue.STRING uid]
    | none => bindings
  ⟨query, bindings⟩

/-- Outcome of `sqlx` `execute` on the database side: either a report of how
many rows were affected, or a database/transport error. -/
inductive ExecResult where
  | ok (rows_affected : Nat)
  | err
deriving DecidableEq

/-- What a handler invocation yields: an HTTP status code, or a Rust panic
(the behaviour of `Result::unwrap` on an `Err`). -/
inductive HandlerReturn where
  | status (code : Nat)
  | panicked
deriving DecidableEq

/-- Tail of `update` (`src/endpoints.rs` lines 363-377):
`execute(..).await.map_err(|_| 500).map(|resp| if resp.rows_affected() == 0
then 400 else 200 ).map_err(|_| 500).unwrap()`.  On a database error the
chain reaches `.unwrap()` holding `Err(500)`, which panics instead of
returning the mapped status. -/
def update_exec_tail (r : ExecResult) : HandlerReturn :=
  match r with
  | .err => .panicked
  | .ok n => .status (if n = 0 then 400 else 200)

/-- Tail of `delete` (`src/endpoints.rs` lines 401-415), identical chain to
the `update` tail. -/
def delete_exec_tail (r : ExecResult) : HandlerReturn :=
  match r with
  | .err => .panicked
  | .ok n => .status (if n = 0 then 400 else 200)

/-- The `user_id_matched` resolution in `_http_get` (`src/endpoints.rs` lines
79-82): the value passed as the owner predicate to the GET query. -/
def _http_get_user_id_matched (cfg : CrudConfigData) (user_id : Option String) :
    Option String :=
  match cfg.get_object_permissions .GET with
  | .ALL => none
  | .OWNER => user_id

/-- The `user_id_matched` resolution in `_http_put` (`src/endpoints.rs` lines
167-170). -/
def _http_put_user_id_matched (cfg : CrudConfigData) (user_id : Option String) :
    Option String :=
  match cfg.get_object_permissions .PUT with
  | .ALL => none
  | .OWNER => user_id

/-- The `user_id_matched` resolution in `_http_delete` (`src/endpoints.rs`
lines 211-214). -/
def _http_delete_user_id_matched (cfg : CrudConfigData) (user_id : Option String) :
    Option String :=
  match cfg.get_object_permissions .DELETE with
  | .ALL => none
  | .OWNER => user_id

/-- A JSON web key from the remote key set (`Jwk` in `src/extractors.rs`). -/
structure Jwk where
  kid : String
  n : String
  e : String
deriving DecidableEq

/-- The decoded JOSE header of a token; only the optional `kid` field is
consulted by the source. -/
structure JwtHeader where
  kid : Option String
deriving DecidableEq

/-- An opaque verification key (the `jsonwebtoken::DecodingKey`). -/
structure DecodingKey where
  material : String
deriving DecidableEq

/-- The signing algorithm requested by `Validation::new`. -/
inductive Alg where
  | RS256
  | HS256
deriving DecidableEq

/-- The validation constraints handed to `jsonwebtoken::decode`: algorithm,
expected audience, expected issuer. -/
structure Validation where
  alg : Alg
  audience : String
  issuer : String
deriving DecidableEq

/-- The ways `jsonwebtoken::decode` can reject a token that are relevant
here: signature mismatch, audience mismatch, issuer mismatch, or any other
malformation. -/
inductive DecodeError where
  | invalidSignature
  | invalidAudience
  | invalidIssuer
  | malformed
deriving DecidableEq

/-- Claims of the admin identity provider (`Auth0Claims` in
`src/extractors.rs`). -/
structure Auth0Claims where
  sub : String
  subscription : String
  permissions : List String
deriving DecidableEq

/-- Claims of the primary identity provider (`ClerkClaims` in
`src/extractors.rs`). -/
structure ClerkClaims where
  sub : String
deriving DecidableEq

/-- Claims of the shared-secret subscription token (`CustomClaims` in
`src/extractors.rs`). -/
structure CustomClaims where
  subscription : String
  clerk_id : String
deriving DecidableEq

/-- The external collaborators of token verification, abstracted as
functions: the remote JWKS fetch (keyed by URL), the JOSE header decoder,
RSA key construction, and the `jsonwebtoken::decode` call itself, returning
claims of type `C`. -/
structure VerifyEnv (C : Type) where
  fetchJwks : String → Except Unit (List Jwk)
  decodeHeader : String → Except Unit JwtHeader
  fromRsaComponents : String → String → Option DecodingKey
  decodeToken : String → DecodingKey → Validation → Except DecodeError C

/-- `find_signing_key` (`src/extractors.rs` lines 29-36): the first key whose
`kid` matches is converted with `DecodingKey::from_rsa_components(..).ok()`
and returned immediately (even when the conversion fails); no match yields
`None`. -/
def find_signing_key (fromRsa : String → String → Option DecodingKey)
    (jwks : List Jwk) (kid : String) : Option DecodingKey :=
  match jwks with
  | [] => none
  | jwk :: rest =>
    if jwk.kid = kid then fromRsa jwk.n jwk.e
    else find_signing_key fromRsa rest kid

/-- `decode_auth0_token` (`src/extractors.rs` lines 38-51): a JWKS fetch
failure is status 500; a header decode failure, a missing `kid`, an unmatched
`kid` and any `decode` rejection are all status 401. -/
def decode_auth0_token (env : VerifyEnv Auth0Claims)
    (token audience issuer : String) : Except Nat Auth0Claims :=
  match env.fetchJwks (issuer ++ ".well-known/jwks.json") with
  | .error _ => .error 500
  | .ok jwks =>
    match env.decodeHeader token with
    | .error _ => .error 401
    | .ok header =>
      match header.kid with
      | none => .error 401
      | some kid =>
        match find_signing_key env.fromRsaComponents jwks kid with
        | none => .error 401
        | some key =>
          match env.decodeToken token key ⟨.RS256, audience, issuer⟩ with
          | .error _ => .error 401
          | .ok data => .ok data

/-- `decode_clerk_token` (`src/extractors.rs` lines 53-66): same pipeline as
`decode_auth0_token` over the Clerk claims, with a `/` before the well-known
path. -/
def decode_clerk_token (env : VerifyEnv ClerkClaims)
    (token audience issuer : String) : Except Nat ClerkClaims :=
  match env.fetchJwks (issuer ++ "/.well-known/jwks.json") with
  | .error _ => .error 500
  | .ok jwks =>
    match env.decodeHeader token with
    | .error _ => .error 401
    | .ok header =>
      match header.kid with
      | none => .error 401
      | some kid =>
        match find_signing_key env.fromRsaComponents jwks kid with
        | none => .error 401
        | some key =>
          match env.decodeToken token key ⟨.RS256, audience, issuer⟩ with
          | .error _ => .error 401
          | .ok data => .ok data

/-- Rust `str::starts_with`, on characters (the source only handles ASCII
header values). -/
def startsWithStr (s p : String) : Bool :=
  p.data.isPrefixOf s.data

/-- One fuel-indexed pass of Rust `str::replace`: non-overlapping
left-to-right matches of `pat` are replaced by `rep`; the fuel (instantiated
with the string length) only makes the recursion structural. -/
def replaceLoop (pat rep : List Char) : Nat → List Char → List Char
  | 0, l => l
  | _ + 1, [] => []
  | fuel + 1, c :: rest =>
    if pat.isPrefixOf (c :: rest) then
      rep ++ replaceLoop pat rep fuel ((c :: rest).drop pat.length)
    else
      c :: replaceLoop pat rep fuel rest

/-- Rust `str::replace`, on characters. -/
def replaceStr (s pat rep : String) : String :=
  ⟨replaceLoop pat.data rep.data s.data.length s.data⟩

/-- Request headers, as an association list looked up by first match. -/
def headerGet (headers : List (String × String)) (key : String) : Option String :=
  (headers.find? (fun p => p.1 = key)).map Prod.snd

/-- `pull_header_token` (`src/extractors.rs` lines 108-121): a missing header
is `(401, "No auth token")`, a header not starting with `Bearer ` is
`(401, "Auth Token missing bearer")`, otherwise every occurrence of
`"Bearer "` is replaced by the empty string (Rust `str::replace`). -/
def pull_header_token (headers : List (String × String)) (key : String) :
    Except (Nat × String) String :=
  match headerGet headers key with
  | none => .error (401, "No auth token")
  | some v =>
    if ¬ (startsWithStr v "Bearer ") then .error (401, "Auth Token missing bearer")
    else .ok (replaceStr v "Bearer " "")

/-- The authenticated identity produced by the `AuthUser` guard. -/
structure AuthUser where
  user_id : String
  subscription : String
deriving DecidableEq

/-- The admin identity produced by the `AdminUser` guard. -/
structure AdminUser where
  user_id : String
  subscription : String
  permissions : List String
deriving DecidableEq

/-- `AuthUser::from_request_parts` (`src/extractors.rs` lines 127-162), with
the two decoding calls (already closed over audience, issuer and secret drawn
from the environment) abstracted as `decodeClerk` and `decodeCustom`: pulls
the bearer token from `Authorization`; pulls the `Subscription` header only
when present (otherwise the literal `"none"`); decodes the primary token; on
`"none"` succeeds with the primary subject alone; otherwise decodes the
subscription token and rejects with `(401, "invalid permissions")` unless its
`clerk_id` equals the primary subject. -/
def auth_user_from_request_parts
    (decodeClerk : String → Except Nat ClerkClaims)
    (decodeCustom : String → Except Nat CustomClaims)
    (headers : List (String × String)) : Except (Nat × String) AuthUser :=
  match pull_header_token headers "Authorization" with
  | .error e => .error e
  | .ok access_token =>
    let pulled :=
      match headerGet headers "Subscription" with
      | some _ => pull_header_token headers "Subscription"
      | none => .ok "none"
    match pulled with
    | .error e => .error e
    | .ok subscription_token =>
      match decodeClerk access_token with
      | .error status => .error (status, "Error decoding auth token")
      | .ok access_claims =>
        if subscription_token = "none" then
          .ok ⟨access_claims.sub, subscription_token⟩
        else
          match decodeCustom subscription_token with
          | .error status => .error (status, "Error decoding sub token")
          | .ok sub_claims =>
            if access_claims.sub ≠ sub_claims.clerk_id then
              .error (401, "invalid permissions")
            else
              .ok ⟨access_claims.sub, sub_claims.subscription⟩

/-- `AdminUser::from_request_parts` (`src/extractors.rs` lines 169-195), with
the `decode_auth0_token` call (closed over audience and issuer) abstracted as
`decodeAuth0`: inlines the header pull, decodes the token, and rejects with
`(401, "invalid permissions")` when the permission claim list does not
contain `"read:admin"`. -/
def admin_user_from_request_parts
    (decodeAuth0 : String → Except Nat Auth0Claims)
    (headers : List (String × String)) : Except (Nat × String) AdminUser :=
  match headerGet headers "Authorization" with
  | none => .error (401, "No auth token")
  | some v =>
    if ¬ (startsWithStr v "Bearer ") then .error (401, "Auth Token missing bearer")
    else
      match decodeAuth0 (replaceStr v "Bearer " "") with
      | .error status => .error (status, "Error decoding token")
      | .ok claims =>
        if ¬ (claims.permissions.contains "read:admin") then
          .error (401, "invalid permissions")
        else
          .ok ⟨claims.sub, claims.subscription, claims.permissions⟩

/-! ## Specification-side descriptions of the built queries

The following definitions restate, from the specification's wording, what the
builders are supposed to produce: an explicit list of predicates joined with a
separator, owner predicate first, consecutive parameter indices.  The
refinement lemmas below relate them to the source-translated builders. -/

/-- Join a list of fragments with a separator (no trailing separator). -/
def sepJoin (sep : String) : List String → String
  | [] => ""
  | [x] => x
  | x :: xs => x ++ sep ++ sepJoin sep xs

/-- Join a list of fragments, each followed by the separator (the shape the
builder loops accumulate before the final truncation). -/
def sepTrail (sep : String) : List String → String
  | [] => ""
  | x :: xs => x ++ sep ++ sepTrail sep xs

/-- The filter predicates for a pair list, first parameter index `count`,
consecutive indices afterwards. -/
def fieldPredList : List (String × FieldValue) → Nat → List String
  | [], _ => []
  | (key, _) :: rest, count => predStr key count :: fieldPredList rest (count + 1)

/-- Plain `key = $i` assignments/equalities with consecutive indices, as the
spec describes both equality SELECT filters and UPDATE SET entries. -/
def eqAssignList : List (String × FieldValue) → Nat → List String
  | [], _ => []
  | (key, _) :: rest, count =>
    (key ++ " = $" ++ toString count) :: eqAssignList rest (count + 1)

/-- The owner predicate list: `user_id = $1` exactly when an owner id is
supplied. -/
def ownerPredList : Option String → List String
  | some _ => ["user_id = $1"]
  | none => []

/-- The owner binding: the owner id bound first, as a string. -/
def ownerBindings : Option String → List FieldValue
  | some uid => [FieldValue.STRING uid]
  | none => []

/-- First parameter index available to field predicates. -/
def startIdx : Option String → Nat
  | some _ => 2
  | none => 1

/-- The reserved control keys of the filter. -/
def isReserved (key : String) : Bool :=
  key = "order_by" || key = "order_dir"

/-- The filter pairs that become predicates: everything but the reserved
control keys. -/
def nonRes (ps : List (String × FieldValue)) : List (String × FieldValue) :=
  ps.filter (fun p => ! isReserved p.1)

/-- The order column resolved by a pass over the pairs: a string-valued
`order_by` overrides the current column. -/
def ordCol : List (String × FieldValue) → String → String
  | [], col => col
  | (key, value) :: rest, col =>
    if key = "order_by" then
      match value with
      | .STRING v => ordCol rest v
      | _ => ordCol rest col
    else ordCol rest col

/-- The order direction resolved by a pass over the pairs: a string-valued
`order_dir` equal to `"asc"` switches to `ASC`; nothing else changes it. -/
def ordDir : List (String × FieldValue) → String → String
  | [], dir => dir
  | (key, value) :: rest, dir =>
    if key = "order_dir" then
      match value with
      | .STRING v => if v = "asc" then ordDir rest "ASC" else ordDir rest dir
      | _ => ordDir rest dir
    else ordDir rest dir

/-- A key the suffix dispatch sends to plain equality: shorter than three
characters, or not ending in one of the four operator suffixes. -/
def IsEqKey (key : String) : Prop :=
  key.length < 3 ∨
    (dropChars key (key.length - 3) ≠ "_gt" ∧
     dropChars key (key.length - 3) ≠ "_lt" ∧
     dropChars key (key.length - 3) ≠ "_ge" ∧
     dropChars key (key.length - 3) ≠ "_le")

instance (key : String) : Decidable (IsEqKey key) := by
  unfold IsEqKey; infer_instance

/-- A database behaviour consistent with the repository's own test
`test_order_by_any` (`src/tests/general.rs` lines 363-388): the filter
`?order_by=age` contributes no predicate and no owner id applies, and the
test asserts status 200 with rows returned — i.e. the database accepts the
truncated statement (`W` parses as a table alias) and yields rows. -/
def dbTestOrderBy : String → List FieldValue → Except Unit (List Nat) :=
  fun q _ =>
    if q = "SELECT * FROM TestObjects W ORDER BY age DESC" then .ok [0]
    else .error ()

/-! ## String helper lemmas -/

theorem takeChars_append (s t : String) : takeChars (s ++ t) s.length = s := by
  apply String.ext
  show ((s ++ t).data).take s.length = s.data
  rw [String.data_append]
  exact List.take_left s.data t.data

theorem dropChars_append (s t : String) : dropChars (s ++ t) s.length = t := by
  apply String.ext
  show ((s ++ t).data).drop s.length = t.data
  rw [String.data_append]
  exact List.drop_left s.data t.data

theorem takeChars_strip (A B : String) :
    takeChars (A ++ B) ((A ++ B).length - B.length) = A := by
  rw [String.length_append, Nat.add_sub_cancel]
  exact takeChars_append A B

theorem dropChars_strip (A B : String) :
    dropChars (A ++ B) ((A ++ B).length - B.length) = B := by
  rw [String.length_append, Nat.add_sub_cancel]
  exact dropChars_append A B

theorem sepTrail_eq_join (sep : String) :
    ∀ (L : List String), L ≠ [] → sepTrail sep L = sepJoin sep L ++ sep
  | [], h => absurd rfl h
  | [x], _ => by
    show x ++ sep ++ sepTrail sep [] = x ++ sep
    show x ++ sep ++ "" = x ++ sep
    rw [String.append_empty]
  | x :: y :: xs, _ => by
    show x ++ sep ++ sepTrail sep (y :: xs) = (x ++ sep ++ sepJoin sep (y :: xs)) ++ sep
    rw [sepTrail_eq_join sep (y :: xs) (by simp), String.append_assoc,
      String.append_assoc, String.append_assoc]

/-! ## Characterization of the builder folds -/

theorem fieldPredList_ne_nil (ps : List (String × FieldValue)) (c : Nat)
    (h : ps ≠ []) : fieldPredList ps c ≠ [] := by
  cases ps with
  | nil => exact absurd rfl h
  | cons p rest => cases p; simp [fieldPredList]

theorem fieldPredList_length (ps : List (String × FieldValue)) :
    ∀ c : Nat, (fieldPredList ps c).length = ps.length := by
  induction ps with
  | nil => intro c; rfl
  | cons p rest ih => intro c; cases p; simp [fieldPredList, ih]

theorem eqAssignList_length (ps : List (String × FieldValue)) :
    ∀ c : Nat, (eqAssignList ps c).length = ps.length := by
  induction ps with
  | nil => intro c; rfl
  | cons p rest ih => intro c; cases p; simp [eqAssignList, ih]

theorem readFold_eq (ps : List (String × FieldValue)) (acc : ReadAcc) :
    readFold ps acc =
      { query := acc.query ++ sepTrail " AND " (fieldPredList (nonRes ps) acc.count),
        count := acc.count + (nonRes ps).length,
        order_col := ordCol ps acc.order_col,
        order_dir := ordDir ps acc.order_dir,
        bindings := acc.bindings ++ (nonRes ps).map Prod.snd } := by
  induction ps generalizing acc with
  | nil =>
    simp [readFold, nonRes, fieldPredList, sepTrail, ordCol, ordDir]
  | cons p rest ih =>
    obtain ⟨key, value⟩ := p
    by_cases hob : key = "order_by"
    · subst hob
      cases value with
      | STRING v =>
        simp only [readFold, if_pos rfl]
        rw [ih]
        simp [nonRes, isReserved, ordCol, ordDir]
      | UUID v =>
        simp only [readFold, if_pos rfl]
        rw [ih]; simp [nonRes, isReserved, ordCol, ordDir]
      | INTEGER v =>
        simp only [readFold, if_pos rfl]
        rw [ih]; simp [nonRes, isReserved, ordCol, ordDir]
      | DATE v =>
        simp only [readFold, if_pos rfl]
        rw [ih]; simp [nonRes, isReserved, ordCol, ordDir]
      | BOOLEAN v =>
        simp only [readFold, if_pos rfl]
        rw [ih]; simp [nonRes, isReserved, ordCol, ordDir]
      | FLOAT v =>
        simp only [readFold, if_pos rfl]
        rw [ih]; simp [nonRes, isReserved, ordCol, ordDir]
    · by_cases hod : key = "order_dir"
      · subst hod
        cases value with
        | STRING v =>
          simp only [readFold, if_neg hob, if_pos rfl]
          by_cases hasc : v = "asc"
          · subst hasc
            rw [if_pos rfl, ih]
            simp [nonRes, isReserved, ordCol, ordDir, hob]
          · rw [if_neg hasc, ih]
            simp [nonRes, isReserved, ordCol, ordDir, hob, hasc]
        | UUID v =>
          simp only [readFold, if_neg hob, if_pos rfl]
          rw [ih]; simp [nonRes, isReserved, ordCol, ordDir, hob]
        | INTEGER v =>
          simp only [readFold, if_neg hob, if_pos rfl]
          rw [ih]; simp [nonRes, isReserved, ordCol, ordDir, hob]
        | DATE v =>
          simp only [readFold, if_neg hob, if_pos rfl]
          rw [ih]; simp [nonRes, isReserved, ordCol, ordDir, hob]
        | BOOLEAN v =>
          simp only [readFold, if_neg hob, if_pos rfl]
          rw [ih]; simp [nonRes, isReserved, ordCol, ordDir, hob]
        | FLOAT v =>
          simp only [readFold, if_neg hob, if_pos rfl]
          rw [ih]; simp [nonRes, isReserved, ordCol, ordDir, hob]
      · have hres : isReserved key = false := by
          simp [isReserved, hob, hod]
        have hfil : nonRes ((key, value) :: rest) = (key, value) :: nonRes rest := by
          simp [nonRes, List.filter_cons, hres]
        simp only [readFold, if_neg hob, if_neg hod]
        rw [ih, hfil]
        simp only [fieldPredList, sepTrail, List.length_cons, List.map_cons,
          ReadAcc.mk.injEq]
        refine ⟨?_, ?_, ?_, ?_, ?_⟩
        · simp [String.append_assoc]
        · omega
        · simp [ordCol, hob]
        · simp [ordDir, hod]
        · simp

theorem updateFold_eq (ps : List (String × FieldValue)) :
    ∀ (q : String) (c : Nat),
      updateFold ps q c = (q ++ sepTrail ", " (eqAssignList ps (c + 1)), c + ps.length) := by
  induction ps with
  | nil =>
    intro q c
    simp [updateFold, eqAssignList, sepTrail, String.append_empty]
  | cons p rest ih =>
    intro q c
    obtain ⟨key, value⟩ := p
    show updateFold rest (q ++ key ++ " = $" ++ toString (c + 1) ++ ", ") (c + 1) = _
    rw [ih]
    simp only [eqAssignList, sepTrail, List.length_cons, Prod.mk.injEq]
    refine ⟨?_, ?_⟩
    · simp [String.append_assoc]
    · omega

theorem strip_sep (base sep : String) (L : List String) (hL : L ≠ []) :
    takeChars (base ++ sepTrail sep L) ((base ++ sepTrail sep L).length - sep.length) =
      base ++ sepJoin sep L := by
  rw [sepTrail_eq_join sep L hL, ← String.append_assoc]
  exact takeChars_strip (base ++ sepJoin sep L) sep

theorem nonRes_noRes (ps : List (String × FieldValue))
    (h : ∀ p ∈ ps, isReserved p.1 = false) : nonRes ps = ps := by
  apply List.filter_eq_self.mpr
  intro p hp
  simp [h p hp]

theorem nonRes_append (a b : List (String × FieldValue)) :
    nonRes (a ++ b) = nonRes a ++ nonRes b := List.filter_append a b

theorem ordCol_noRes (ps : List (String × FieldValue))
    (h : ∀ p ∈ ps, isReserved p.1 = false) : ∀ col, ordCol ps col = col := by
  induction ps with
  | nil => intro col; rfl
  | cons p rest ih =>
    intro col
    obtain ⟨key, value⟩ := p
    have hk : isReserved key = false := h (key, value) (by simp)
    have hob : ¬ key = "order_by" := by
      intro hc; rw [hc] at hk; simp [isReserved] at hk
    simp only [ordCol, if_neg hob]
    exact ih (fun q hq => h q (by simp [hq])) col

theorem ordDir_noRes (ps : List (String × FieldValue))
    (h : ∀ p ∈ ps, isReserved p.1 = false) : ∀ dir, ordDir ps dir = dir := by
  induction ps with
  | nil => intro dir; rfl
  | cons p rest ih =>
    intro dir
    obtain ⟨key, value⟩ := p
    have hk : isReserved key = false := h (key, value) (by simp)
    have hod : ¬ key = "order_dir" := by
      intro hc; rw [hc] at hk; simp [isReserved] at hk
    simp only [ordDir, if_neg hod]
    exact ih (fun q hq => h q (by simp [hq])) dir

theorem ordCol_append (a : List (String × FieldValue)) :
    ∀ (b : List (String × FieldValue)) (col : String),
      ordCol (a ++ b) col = ordCol b (ordCol a col) := by
  induction a with
  | nil => intro b col; rfl
  | cons p rest ih =>
    intro b col
    obtain ⟨key, value⟩ := p
    by_cases hob : key = "order_by"
    · subst hob
      cases value <;> simp [ordCol, ih]
    · simp [ordCol, hob, ih]

theorem ordDir_append (a : List (String × FieldValue)) :
    ∀ (b : List (String × FieldValue)) (dir : String),
      ordDir (a ++ b) dir = ordDir b (ordDir a dir) := by
  induction a with
  | nil => intro b dir; rfl
  | cons p rest ih =>
    intro b dir
    obtain ⟨key, value⟩ := p
    by_cases hod : key = "order_dir"
    · subst hod
      cases value with
      | STRING v =>
        by_cases hasc : v = "asc" <;> simp [ordDir, hasc, ih]
      | UUID v => simp [ordDir, ih]
      | INTEGER v => simp [ordDir, ih]
      | DATE v => simp [ordDir, ih]
      | BOOLEAN v => simp [ordDir, ih]
      | FLOAT v => simp [ordDir, ih]
    · simp [ordDir, hod, ih]

/-- Refinement of the default SELECT builder against the spec-side shape:
whenever at least one predicate is emitted (some non-reserved filter pair, or
an owner id), the query is the predicate list — owner predicate first, filter
predicates in pair order with consecutive parameter indices — joined with
`AND`, framed by the SELECT header and the resolved ORDER BY clause, and the
bindings are the owner id followed by the filter values in pair order. -/
theorem read_spec (t : String) (ps : List (String × FieldValue)) (uid : Option String)
    (h : nonRes ps ≠ [] ∨ uid.isSome = true) :
    read t ps uid =
      { query := "SELECT * FROM " ++ t ++ " WHERE " ++
          sepJoin " AND " (ownerPredList uid ++ fieldPredList (nonRes ps) (startIdx uid)) ++
          " ORDER BY " ++ ordCol ps "id" ++ " " ++ ordDir ps "DESC",
        bindings := ownerBindings uid ++ (nonRes ps).map Prod.snd,
        order_col := ordCol ps "id",
        order_dir := ordDir ps "DESC" } := by
  cases uid with
  | none =>
    have hne : nonRes ps ≠ [] := by
      rcases h with h | h
      · exact h
      · simp [Option.isSome] at h
    have hL : fieldPredList (nonRes ps) 1 ≠ [] := fieldPredList_ne_nil _ _ hne
    show (let acc := readFold ps ⟨"SELECT * FROM " ++ t ++ " WHERE ", 1, "id", "DESC", []⟩
          ReadResult.mk
            (takeChars acc.query (acc.query.length - 5) ++ " ORDER BY " ++
              acc.order_col ++ " " ++ acc.order_dir)
            acc.bindings acc.order_col acc.order_dir) = _
    rw [readFold_eq]
    simp only [ReadResult.mk.injEq]
    rw [show (5 : Nat) = (" AND " : String).length from rfl]
    rw [strip_sep _ _ _ hL]
    simp [ownerPredList, ownerBindings, startIdx]
  | some u =>
    have hq : (("SELECT * FROM " ++ t ++ " WHERE ") ++ "user_id = $" ++ toString 1 ++ " AND ")
        = ("SELECT * FROM " ++ t ++ " WHERE ") ++ ("user_id = $1" ++ " AND ") := by
      rw [show (toString 1 : String) = "1" from rfl]
      simp only [String.append_assoc]
      rw [show ("user_id = $" ++ ("1" ++ " AND ") : String) = "user_id = $1" ++ " AND " from rfl]
    show (let acc := readFold ps
            ⟨("SELECT * FROM " ++ t ++ " WHERE ") ++ "user_id = $" ++ toString 1 ++ " AND ",
             2, "id", "DESC", []⟩
          ReadResult.mk
            (takeChars acc.query (acc.query.length - 5) ++ " ORDER BY " ++
              acc.order_col ++ " " ++ acc.order_dir)
            (FieldValue.STRING u :: acc.bindings) acc.order_col acc.order_dir) = _
    rw [readFold_eq]
    simp only [ReadResult.mk.injEq]
    rw [hq]
    rw [show ("SELECT * FROM " ++ t ++ " WHERE " ++ ("user_id = $1" ++ " AND ")) ++
          sepTrail " AND " (fieldPredList (nonRes ps) 2)
        = ("SELECT * FROM " ++ t ++ " WHERE ") ++
          sepTrail " AND " ("user_id = $1" :: fieldPredList (nonRes ps) 2) from
        by
          show _ = ("SELECT * FROM " ++ t ++ " WHERE ") ++
            (("user_id = $1" ++ " AND ") ++ sepTrail " AND " (fieldPredList (nonRes ps) 2))
          simp only [String.append_assoc]]
    rw [show (5 : Nat) = (" AND " : String).length from rfl]
    rw [strip_sep _ _ _ (by simp)]
    simp [ownerPredList, ownerBindings, startIdx]

theorem eqAssignList_ne_nil (ps : List (String × FieldValue)) (c : Nat)
    (h : ps ≠ []) : eqAssignList ps c ≠ [] := by
  cases ps with
  | nil => exact absurd rfl h
  | cons p rest => cases p; simp [eqAssignList]

theorem predStr_of_eq (key : String) (c : Nat) (h : IsEqKey key) :
    predStr key c = key ++ " = $" ++ toString c := by
  unfold predStr
  by_cases h3 : key.length < 3
  · rw [if_pos h3]
  · rcases h with h | ⟨h1, h2, h4, h5⟩
    · exact absurd h h3
    · rw [if_neg h3, if_neg h1, if_neg h2, if_neg h4, if_neg h5]

theorem fieldPredList_eqAssign (ps : List (String × FieldValue))
    (h : ∀ p ∈ ps, IsEqKey p.1) :
    ∀ c : Nat, fieldPredList ps c = eqAssignList ps c := by
  induction ps with
  | nil => intro c; rfl
  | cons p rest ih =>
    intro c
    obtain ⟨key, value⟩ := p
    have hk : IsEqKey key := h (key, value) (by simp)
    simp only [fieldPredList, eqAssignList, predStr_of_eq key c hk]
    rw [ih (fun q hq => h q (by simp [hq])) (c + 1)]

theorem append3_take_drop (stem sfx : String) (h3 : sfx.length = 3) :
    dropChars (stem ++ sfx) ((stem ++ sfx).length - 3) = sfx ∧
    takeChars (stem ++ sfx) ((stem ++ sfx).length - 3) = stem := by
  have hl : (stem ++ sfx).length - 3 = stem.length := by
    rw [String.length_append, h3]
    omega
  rw [hl]
  exact ⟨dropChars_append stem sfx, takeChars_append stem sfx⟩

theorem append3_ne (stem sfx r : String) (h3 : sfx.length = 3)
    (hr : dropChars r (r.length - 3) ≠ sfx) : stem ++ sfx ≠ r := by
  intro hc
  apply hr
  rw [← hc]
  exact (append3_take_drop stem sfx h3).1

theorem length3_not_lt (stem sfx : String) (h3 : sfx.length = 3) :
    ¬ (stem ++ sfx).length < 3 := by
  rw [String.length_append, h3]
  omega

theorem predStr_gt (stem : String) (c : Nat) :
    predStr (stem ++ "_gt") c = stem ++ " > $" ++ toString c := by
  obtain ⟨hd, ht⟩ := append3_take_drop stem "_gt" rfl
  unfold predStr
  rw [if_neg (length3_not_lt stem "_gt" rfl), hd, ht, if_pos rfl]

theorem predStr_lt (stem : String) (c : Nat) :
    predStr (stem ++ "_lt") c = stem ++ " < $" ++ toString c := by
  obtain ⟨hd, ht⟩ := append3_take_drop stem "_lt" rfl
  unfold predStr
  rw [if_neg (length3_not_lt stem "_lt" rfl), hd, ht,
    if_neg (by decide), if_pos rfl]

theorem predStr_ge (stem : String) (c : Nat) :
    predStr (stem ++ "_ge") c = stem ++ " >= $" ++ toString c := by
  obtain ⟨hd, ht⟩ := append3_take_drop stem "_ge" rfl
  unfold predStr
  rw [if_neg (length3_not_lt stem "_ge" rfl), hd, ht,
    if_neg (by decide), if_neg (by decide), if_pos rfl]

theorem predStr_le (stem : String) (c : Nat) :
    predStr (stem ++ "_le") c = stem ++ " <= $" ++ toString c := by
  obtain ⟨hd, ht⟩ := append3_take_drop stem "_le" rfl
  unfold predStr
  rw [if_neg (length3_not_lt stem "_le" rfl), hd, ht,
    if_neg (by decide), if_neg (by decide), if_neg (by decide), if_pos rfl]

theorem isReserved_append3 (stem sfx : String) (h3 : sfx.length = 3)
    (hgt : sfx ≠ "_by" ∧ sfx ≠ "dir") : isReserved (stem ++ sfx) = false := by
  have h1 : stem ++ sfx ≠ "order_by" := by
    apply append3_ne stem sfx "order_by" h3
    intro hc
    exact hgt.1 (by rw [← hc]; rfl)
  have h2 : stem ++ sfx ≠ "order_dir" := by
    apply append3_ne stem sfx "order_dir" h3
    intro hc
    exact hgt.2 (by rw [← hc]; rfl)
  simp [isReserved, h1, h2]

/-- The query emitted for a single non-reserved filter key with no owner id. -/
theorem read_single (t key : String) (v : FieldValue)
    (hk : isReserved key = false) :
    (read t [(key, v)] none).query =
      "SELECT * FROM " ++ t ++ " WHERE " ++ predStr key 1 ++ " ORDER BY id DESC" := by
  have hnr : nonRes [(key, v)] = [(key, v)] :=
    nonRes_noRes _ (by intro p hp; simp at hp; rw [hp]; exact hk)
  have h := read_spec t [(key, v)] none (by rw [hnr]; left; simp)
  rw [h]
  have hcol : ordCol [(key, v)] "id" = "id" :=
    ordCol_noRes _ (by intro p hp; simp at hp; rw [hp]; exact hk) "id"
  have hdir : ordDir [(key, v)] "DESC" = "DESC" :=
    ordDir_noRes _ (by intro p hp; simp at hp; rw [hp]; exact hk) "DESC"
  rw [hnr, hcol, hdir]
  show "SELECT * FROM " ++ t ++ " WHERE " ++
      sepJoin " AND " [predStr key 1] ++ " ORDER BY " ++ "id" ++ " " ++ "DESC" = _
  show "SELECT * FROM " ++ t ++ " WHERE " ++ predStr key 1 ++
      " ORDER BY " ++ "id" ++ " " ++ "DESC" = _
  simp [String.append_assoc]

/-! ## Claim theorems -/

/-- C1: for every SELECT built by the default read path (whenever at least
one predicate is emitted): an applying owner constraint is the first
predicate, bound to parameter `$1`; the field predicates are exactly those of
the non-reserved filter pairs — suffixed keys included — in the order the
pairs appear in the key-value sequence, each consuming the next parameter
index, with the bindings in the same order; and, as the claim scopes its
count property, for a reserved-free filter with only equality fields the
predicate count is the number of (present) fields plus one exactly when an
owner constraint applies, the predicates then being plain equalities. -/
theorem C1_select_owner_first_params_in_order (t : String)
    (ps : List (String × FieldValue)) (uid : Option String)
    (hne : nonRes ps ≠ [] ∨ uid.isSome = true) :
    (read t ps uid).query =
      "SELECT * FROM " ++ t ++ " WHERE " ++
        sepJoin " AND "
          (ownerPredList uid ++ fieldPredList (nonRes ps) (startIdx uid)) ++
        " ORDER BY " ++ ordCol ps "id" ++ " " ++ ordDir ps "DESC"
    ∧ (read t ps uid).bindings = ownerBindings uid ++ (nonRes ps).map Prod.snd
    ∧ (uid.isSome = true →
        (ownerPredList uid ++ fieldPredList (nonRes ps) (startIdx uid)).head? =
          some "user_id = $1")
    ∧ (fieldPredList (nonRes ps) (startIdx uid)).length = (nonRes ps).length
    ∧ ((∀ p ∈ ps, isReserved p.1 = false) → (∀ p ∈ ps, IsEqKey p.1) →
        (ownerPredList uid ++ fieldPredList (nonRes ps) (startIdx uid)).length =
          ps.length + (if uid.isSome then 1 else 0)
        ∧ fieldPredList (nonRes ps) (startIdx uid) =
            eqAssignList ps (startIdx uid)) := by
  have hr := read_spec t ps uid hne
  refine ⟨?_, ?_, ?_, fieldPredList_length _ _, ?_⟩
  · rw [hr]
  · rw [hr]
  · intro hs
    cases uid with
    | none => simp at hs
    | some u => simp [ownerPredList]
  · intro hres heq
    have hnr : nonRes ps = ps := nonRes_noRes ps hres
    refine ⟨?_, ?_⟩
    · rw [hnr]
      cases uid with
      | none => simp [ownerPredList, startIdx, fieldPredList_length]
      | some u => simp [ownerPredList, startIdx, fieldPredList_length, Nat.add_comm]
    · rw [hnr]
      exact fieldPredList_eqAssign ps heq (startIdx uid)

/-- C2 (counterexample): the key `"_gt"` is shorter than four characters, yet
the default read path does not emit an equality predicate with the key
unchanged — it emits the `>` operator with an empty column name. -/
theorem C2_counterexample_bare_suffix_key :
    (read "t" [("_gt", FieldValue.INTEGER 1)] none).query
        = "SELECT * FROM t WHERE  > $1 ORDER BY id DESC"
    ∧ (read "t" [("_gt", FieldValue.INTEGER 1)] none).query
        ≠ "SELECT * FROM t WHERE _gt = $1 ORDER BY id DESC" := by
  have he : (read "t" [("_gt", FieldValue.INTEGER 1)] none).query
      = "SELECT * FROM t WHERE  > $1 ORDER BY id DESC" := rfl
  refine ⟨he, ?_⟩
  rw [he]
  decide

/-- C2 (amended): for every filter key of length at least three ending in
`_gt`/`_lt`/`_ge`/`_le`, the default read path emits `>`/`<`/`>=`/`<=` with
the three-character suffix stripped from the column name (a key that is
exactly a suffix yields an empty column name); a key shorter than three
characters, or a non-reserved key with no matching suffix, emits exact
equality with the key unchanged. -/
theorem C2_suffix_operator_mapping (t stem key : String) (v w : FieldValue) :
    ((read t [(stem ++ "_gt", v)] none).query
        = "SELECT * FROM " ++ t ++ " WHERE " ++ stem ++ " > $1 ORDER BY id DESC")
    ∧ ((read t [(stem ++ "_lt", v)] none).query
        = "SELECT * FROM " ++ t ++ " WHERE " ++ stem ++ " < $1 ORDER BY id DESC")
    ∧ ((read t [(stem ++ "_ge", v)] none).query
        = "SELECT * FROM " ++ t ++ " WHERE " ++ stem ++ " >= $1 ORDER BY id DESC")
    ∧ ((read t [(stem ++ "_le", v)] none).query
        = "SELECT * FROM " ++ t ++ " WHERE " ++ stem ++ " <= $1 ORDER BY id DESC")
    ∧ (key.length < 3 →
        (read t [(key, w)] none).query
          = "SELECT * FROM " ++ t ++ " WHERE " ++ key ++ " = $1 ORDER BY id DESC")
    ∧ (¬ key.length < 3 → IsEqKey key → isReserved key = false →
        (read t [(key, w)] none).query
          = "SELECT * FROM " ++ t ++ " WHERE " ++ key ++ " = $1 ORDER BY id DESC") := by
  refine ⟨?_, ?_, ?_, ?_, ?_, ?_⟩
  · rw [read_single t _ v (isReserved_append3 stem "_gt" rfl (by decide)),
      predStr_gt stem 1, show (toString 1 : String) = "1" from rfl]
    simp [String.append_assoc]
  · rw [read_single t _ v (isReserved_append3 stem "_lt" rfl (by decide)),
      predStr_lt stem 1, show (toString 1 : String) = "1" from rfl]
    simp [String.append_assoc]
  · rw [read_single t _ v (isReserved_append3 stem "_ge" rfl (by decide)),
      predStr_ge stem 1, show (toString 1 : String) = "1" from rfl]
    simp [String.append_assoc]
  · rw [read_single t _ v (isReserved_append3 stem "_le" rfl (by decide)),
      predStr_le stem 1, show (toString 1 : String) = "1" from rfl]
    simp [String.append_assoc]
  · intro h3
    have hk : isReserved key = false := by
      have h1 : key ≠ "order_by" := by
        intro hc; rw [hc] at h3; exact absurd h3 (by decide)
      have h2 : key ≠ "order_dir" := by
        intro hc; rw [hc] at h3; exact absurd h3 (by decide)
      simp [isReserved, h1, h2]
    rw [read_single t key w hk, predStr_of_eq key 1 (Or.inl h3),
      show (toString 1 : String) = "1" from rfl]
    simp [String.append_assoc]
  · intro _ hk hres
    rw [read_single t key w hres, predStr_of_eq key 1 hk,
      show (toString 1 : String) = "1" from rfl]
    simp [String.append_assoc]

/-- C3 (counterexample): when the filter contributes no predicate and no
owner id applies, the truncation does eat the `HERE ` of `WHERE `, but the
resulting statement `SELECT * FROM TestObjects W ORDER BY age DESC` is the
one the repository's own test `test_order_by_any` runs successfully (`W` is
parsed as a table alias): against that database behaviour the handler
returns the rows, not a 500 error. -/
theorem C3_counterexample_truncated_query_returns_rows :
    (read "TestObjects" [("order_by", FieldValue.STRING "age")] none).query
        = "SELECT * FROM TestObjects W ORDER BY age DESC"
    ∧ readExec dbTestOrderBy "TestObjects"
        [("order_by", FieldValue.STRING "age")] none = .ok [0]
    ∧ readExec dbTestOrderBy "TestObjects"
        [("order_by", FieldValue.STRING "age")] none ≠ .error 500 := by
  have he : readExec dbTestOrderBy "TestObjects"
      [("order_by", FieldValue.STRING "age")] none = .ok [0] := rfl
  refine ⟨rfl, he, ?_⟩
  rw [he]
  exact fun hc => Except.noConfusion hc

/-- C3 (amended): for every table, a default read with a filter contributing
no predicates (only reserved order keys) and no owner id builds exactly
`SELECT * FROM <table> W ORDER BY <col> <dir>` — the unconditional removal of
the last five characters truncates the `WHERE` keyword itself; the handler
returns status 500 only in case the database itself rejects the statement or
fails. -/
theorem C3_no_predicate_truncates_where (t : String)
    (ps : List (String × FieldValue))
    (h : ∀ p ∈ ps, isReserved p.1 = true) :
    (read t ps none).query =
      "SELECT * FROM " ++ t ++ " W ORDER BY " ++ ordCol ps "id" ++ " " ++
        ordDir ps "DESC"
    ∧ ∀ (T : Type) (db : String → List FieldValue → Except Unit (List T)),
        db (read t ps none).query (read t ps none).bindings = .error () →
        readExec db t ps none = .error 500 := by
  have hnil : nonRes ps = [] := by
    apply List.filter_eq_nil_iff.mpr
    intro p hp
    simp [h p hp]
  have hread : read t ps none =
      { query := ("SELECT * FROM " ++ t ++ " W") ++ " ORDER BY " ++
          ordCol ps "id" ++ " " ++ ordDir ps "DESC",
        bindings := [],
        order_col := ordCol ps "id",
        order_dir := ordDir ps "DESC" } := by
    show (let acc := readFold ps ⟨"SELECT * FROM " ++ t ++ " WHERE ", 1, "id", "DESC", []⟩
          ReadResult.mk
            (takeChars acc.query (acc.query.length - 5) ++ " ORDER BY " ++
              acc.order_col ++ " " ++ acc.order_dir)
            acc.bindings acc.order_col acc.order_dir) = _
    rw [readFold_eq]
    have hw : ("SELECT * FROM " ++ t ++ " WHERE ") =
        (("SELECT * FROM " ++ t ++ " W") ++ "HERE ") := by
      simp [String.append_assoc]
    simp only [hnil, fieldPredList, sepTrail, List.length_nil, List.map_nil,
      String.append_empty, List.append_nil]
    rw [hw, show (5 : Nat) = ("HERE " : String).length from rfl, takeChars_strip]
  refine ⟨?_, ?_⟩
  · rw [hread]
    show ("SELECT * FROM " ++ t ++ " W") ++ " ORDER BY " ++
        ordCol ps "id" ++ " " ++ ordDir ps "DESC" = _
    simp [String.append_assoc]
  · intro T db hdb
    show (match db (read t ps none).query (read t ps none).bindings with
          | .error _ => (.error 500 : Except Nat (List T))
          | .ok rows => .ok rows) = .error 500
    rw [hdb]

/-- C4: the reserved filter keys `order_by` and `order_dir` never become
predicates and consume no parameter index; a string-valued `order_by`
overrides the sort column (default `id` when absent); the direction is
ascending exactly when `order_dir` is the string `"asc"`, and descending for
any other value or when absent. -/
theorem C4_reserved_keys_control_ordering (t obv odv : String)
    (uid : Option String) (ps₁ ps₂ : List (String × FieldValue))
    (h₁ : ∀ p ∈ ps₁, isReserved p.1 = false)
    (h₂ : ∀ p ∈ ps₂, isReserved p.1 = false)
    (hne : ps₁ ++ ps₂ ≠ [] ∨ uid.isSome = true) :
    read t (ps₁ ++ ("order_by", FieldValue.STRING obv) ::
        ("order_dir", FieldValue.STRING odv) :: ps₂) uid =
      { query := "SELECT * FROM " ++ t ++ " WHERE " ++
          sepJoin " AND "
            (ownerPredList uid ++ fieldPredList (ps₁ ++ ps₂) (startIdx uid)) ++
          " ORDER BY " ++ obv ++ " " ++ (if odv = "asc" then "ASC" else "DESC"),
        bindings := ownerBindings uid ++ (ps₁ ++ ps₂).map Prod.snd,
        order_col := obv,
        order_dir := if odv = "asc" then "ASC" else "DESC" }
    ∧ (read t (ps₁ ++ ps₂) uid).order_col = "id"
    ∧ (read t (ps₁ ++ ps₂) uid).order_dir = "DESC" := by
  have hall : ∀ p ∈ ps₁ ++ ps₂, isReserved p.1 = false := by
    intro p hp
    rcases List.mem_append.mp hp with hm | hm
    · exact h₁ p hm
    · exact h₂ p hm
  have hnr12 : nonRes (ps₁ ++ ps₂) = ps₁ ++ ps₂ := nonRes_noRes _ hall
  have hnrq : nonRes (ps₁ ++ ("order_by", FieldValue.STRING obv) ::
      ("order_dir", FieldValue.STRING odv) :: ps₂) = ps₁ ++ ps₂ := by
    rw [nonRes_append, nonRes_noRes ps₁ h₁,
      show nonRes (("order_by", FieldValue.STRING obv) ::
          ("order_dir", FieldValue.STRING odv) :: ps₂) = nonRes ps₂ from rfl,
      nonRes_noRes ps₂ h₂]
  have hcolq : ordCol (ps₁ ++ ("order_by", FieldValue.STRING obv) ::
      ("order_dir", FieldValue.STRING odv) :: ps₂) "id" = obv := by
    rw [ordCol_append, ordCol_noRes ps₁ h₁,
      show ordCol (("order_by", FieldValue.STRING obv) ::
          ("order_dir", FieldValue.STRING odv) :: ps₂) "id" = ordCol ps₂ obv from rfl]
    exact ordCol_noRes ps₂ h₂ obv
  have hdirq : ordDir (ps₁ ++ ("order_by", FieldValue.STRING obv) ::
      ("order_dir", FieldValue.STRING odv) :: ps₂) "DESC" =
      if odv = "asc" then "ASC" else "DESC" := by
    rw [ordDir_append, ordDir_noRes ps₁ h₁,
      show ordDir (("order_by", FieldValue.STRING obv) ::
          ("order_dir", FieldValue.STRING odv) :: ps₂) "DESC" =
        ordDir (("order_dir", FieldValue.STRING odv) :: ps₂) "DESC" from rfl]
    by_cases hasc : odv = "asc"
    · simp [ordDir, hasc, ordDir_noRes ps₂ h₂]
    · simp [ordDir, hasc, ordDir_noRes ps₂ h₂]
  have h' : nonRes (ps₁ ++ ("order_by", FieldValue.STRING obv) ::
      ("order_dir", FieldValue.STRING odv) :: ps₂) ≠ [] ∨ uid.isSome = true := by
    rw [hnrq]; exact hne
  have hr := read_spec t _ uid h'
  have h'' : nonRes (ps₁ ++ ps₂) ≠ [] ∨ uid.isSome = true := by
    rw [hnr12]; exact hne
  have hr2 := read_spec t (ps₁ ++ ps₂) uid h''
  refine ⟨?_, ?_, ?_⟩
  · rw [hr, hnrq, hcolq, hdirq]
  · rw [hr2]
    exact ordCol_noRes _ hall "id"
  · rw [hr2]
    exact ordDir_noRes _ hall "DESC"

/-- C5: the default UPDATE builder emits a SET clause with every input field
in pair order, field `k` of `n` bound to parameter `$k`, then the id equality
predicate bound to `$(n+1)`, then — exactly when an owner id is supplied —
the owner predicate bound to `$(n+2)`; the bind order is field values, then
the id, then the owner id. -/
theorem C5_update_sets_then_id_then_owner (t : String) (id : Nat)
    (ps : List (String × FieldValue)) (uid : Option String) (h : ps ≠ []) :
    (update t id ps uid).query =
      "UPDATE " ++ t ++ " SET " ++ sepJoin ", " (eqAssignList ps 1) ++
        " WHERE id = $" ++ toString (ps.length + 1) ++
        (match uid with
         | some _ => " AND user_id = $" ++ toString (ps.length + 2)
         | none => "")
    ∧ (update t id ps uid).bindings =
        ps.map Prod.snd ++ [FieldValue.UUID id] ++ ownerBindings uid
    ∧ (eqAssignList ps 1).length = ps.length := by
  have hL : eqAssignList ps 1 ≠ [] := eqAssignList_ne_nil ps 1 h
  have hu := updateFold_eq ps ("UPDATE " ++ t ++ " SET ") 0
  have hL1 : eqAssignList ps (0 + 1) ≠ [] := eqAssignList_ne_nil ps (0 + 1) h
  refine ⟨?_, ?_, eqAssignList_length ps 1⟩
  · simp only [update, hu]
    rw [show (2 : Nat) = (", " : String).length from rfl]
    rw [strip_sep _ _ _ hL1]
    rw [Nat.zero_add, Nat.zero_add]
    cases uid <;> simp [String.append_assoc]
  · simp only [update, hu]
    cases uid with
    | none => simp [ownerBindings]
    | some u => simp [ownerBindings]

/-- C6 (code evaluation): for the default UPDATE and DELETE executions, a
database report of zero affected rows yields status 400 and a positive count
yields 200; but when the database call itself fails, the
`map_err(|_| 500).unwrap()` chain panics on the `Err` instead of returning
the mapped 500 — the failing input is a database error during execute. -/
theorem C6_zero_rows_400_but_db_error_panics :
    update_exec_tail .err = .panicked
    ∧ delete_exec_tail .err = .panicked
    ∧ update_exec_tail .err ≠ .status 500
    ∧ delete_exec_tail .err ≠ .status 500
    ∧ update_exec_tail (.ok 0) = .status 400
    ∧ delete_exec_tail (.ok 0) = .status 400
    ∧ update_exec_tail (.ok 1) = .status 200
    ∧ delete_exec_tail (.ok 1) = .status 200 := by
  refine ⟨rfl, rfl, ?_, ?_, rfl, rfl, rfl, rfl⟩ <;> decide

/-- C7: for each of the GET, PUT and DELETE handlers, an `ALL` object scope
passes no owner predicate to the query regardless of caller identity; an
`OWNER` object scope passes the caller's identity when one exists, and when
the caller is anonymous the owner predicate is omitted entirely. -/
theorem C7_object_scope_owner_resolution (cfg : CrudConfigData)
    (uid : Option String) (u : String) :
    (cfg.get_object_permissions .GET = .ALL →
      _http_get_user_id_matched cfg uid = none)
    ∧ (cfg.get_object_permissions .GET = .OWNER →
      _http_get_user_id_matched cfg (some u) = some u)
    ∧ (cfg.get_object_permissions .GET = .OWNER →
      _http_get_user_id_matched cfg none = none)
    ∧ (cfg.get_object_permissions .PUT = .ALL →
      _http_put_user_id_matched cfg uid = none)
    ∧ (cfg.get_object_permissions .PUT = .OWNER →
      _http_put_user_id_matched cfg (some u) = some u)
    ∧ (cfg.get_object_permissions .PUT = .OWNER →
      _http_put_user_id_matched cfg none = none)
    ∧ (cfg.get_object_permissions .DELETE = .ALL →
      _http_delete_user_id_matched cfg uid = none)
    ∧ (cfg.get_object_permissions .DELETE = .OWNER →
      _http_delete_user_id_matched cfg (some u) = some u)
    ∧ (cfg.get_object_permissions .DELETE = .OWNER →
      _http_delete_user_id_matched cfg none = none) := by
  refine ⟨?_, ?_, ?_, ?_, ?_, ?_, ?_, ?_, ?_⟩ <;>
    · intro hp
      simp [_http_get_user_id_matched, _http_put_user_id_matched,
        _http_delete_user_id_matched, hp]

/-- C8: during token verification (both the Auth0 and the Clerk pipeline), a
missing key-id, an unmatched key-id, and any `decode` rejection — signature,
audience or issuer mismatch — produce the identical `401` error value; the
result never records which check failed. -/
theorem C8_verification_failures_uniform_401
    (envA : VerifyEnv Auth0Claims) (envC : VerifyEnv ClerkClaims)
    (token audience issuer : String) (jwksA jwksC : List Jwk)
    (hA : envA.fetchJwks (issuer ++ ".well-known/jwks.json") = .ok jwksA)
    (hC : envC.fetchJwks (issuer ++ "/.well-known/jwks.json") = .ok jwksC) :
    (envA.decodeHeader token = .ok ⟨none⟩ →
      decode_auth0_token envA token audience issuer = .error 401)
    ∧ (∀ kid, envA.decodeHeader token = .ok ⟨some kid⟩ →
        find_signing_key envA.fromRsaComponents jwksA kid = none →
        decode_auth0_token envA token audience issuer = .error 401)
    ∧ (∀ kid key e, envA.decodeHeader token = .ok ⟨some kid⟩ →
        find_signing_key envA.fromRsaComponents jwksA kid = some key →
        envA.decodeToken token key ⟨.RS256, audience, issuer⟩ = .error e →
        decode_auth0_token envA token audience issuer = .error 401)
    ∧ (envC.decodeHeader token = .ok ⟨none⟩ →
        decode_clerk_token envC token audience issuer = .error 401)
    ∧ (∀ kid, envC.decodeHeader token = .ok ⟨some kid⟩ →
        find_signing_key envC.fromRsaComponents jwksC kid = none →
        decode_clerk_token envC token audience issuer = .error 401)
    ∧ (∀ kid key e, envC.decodeHeader token = .ok ⟨some kid⟩ →
        find_signing_key envC.fromRsaComponents jwksC kid = some key →
        envC.decodeToken token key ⟨.RS256, audience, issuer⟩ = .error e →
        decode_clerk_token envC token audience issuer = .error 401) := by
  refine ⟨?_, ?_, ?_, ?_, ?_, ?_⟩
  · intro hh
    simp [decode_auth0_token, hA, hh]
  · intro kid hh hf
    simp [decode_auth0_token, hA, hh, hf]
  · intro kid key e hh hf hd
    simp [decode_auth0_token, hA, hh, hf, hd]
  · intro hh
    simp [decode_clerk_token, hC, hh]
  · intro kid hh hf
    simp [decode_clerk_token, hC, hh, hf]
  · intro kid key e hh hf hd
    simp [decode_clerk_token, hC, hh, hf, hd]

/-- C9: with a valid primary bearer token, authentication succeeds on the
primary token alone when no `Subscription` header is present; when a
subscription token is present (and decodes), authentication succeeds exactly
when the identity reference embedded in it equals the primary token's
subject, and is otherwise rejected with 401. -/
theorem C9_subscription_token_binds_identity
    (decodeClerk : String → Except Nat ClerkClaims)
    (decodeCustom : String → Except Nat CustomClaims)
    (headers : List (String × String)) (va vs : String)
    (cc : ClerkClaims) (sc : CustomClaims)
    (ha : headerGet headers "Authorization" = some va)
    (hab : startsWithStr va "Bearer " = true)
    (hdc : decodeClerk (replaceStr va "Bearer " "") = .ok cc) :
    (headerGet headers "Subscription" = none →
      auth_user_from_request_parts decodeClerk decodeCustom headers =
        .ok ⟨cc.sub, "none"⟩)
    ∧ (headerGet headers "Subscription" = some vs →
        startsWithStr vs "Bearer " = true →
        replaceStr vs "Bearer " "" ≠ "none" →
        decodeCustom (replaceStr vs "Bearer " "") = .ok sc →
        ((sc.clerk_id = cc.sub →
            auth_user_from_request_parts decodeClerk decodeCustom headers =
              .ok ⟨cc.sub, sc.subscription⟩)
         ∧ (sc.clerk_id ≠ cc.sub →
            auth_user_from_request_parts decodeClerk decodeCustom headers =
              .error (401, "invalid permissions")))) := by
  constructor
  · intro hs
    simp [auth_user_from_request_parts, pull_header_token, ha, hab, hs, hdc]
  · intro hs hsb hsn hds
    constructor
    · intro heq
      simp [auth_user_from_request_parts, pull_header_token, ha, hab, hs, hsb,
        hdc, hsn, hds, heq]
    · intro hne
      simp [auth_user_from_request_parts, pull_header_token, ha, hab, hs, hsb,
        hdc, hsn, hds, Ne.symm hne]

/-- C10: admin resolution rejects an otherwise-valid token whose
permission-claim list lacks `"read:admin"` with status 401 — the same status
as when no token is presented at all (and not 403). -/
theorem C10_admin_missing_permission_401
    (decodeAuth0 : String → Except Nat Auth0Claims)
    (headers : List (String × String)) (v : String) (claims : Auth0Claims)
    (hv : headerGet headers "Authorization" = some v)
    (hb : startsWithStr v "Bearer " = true)
    (hd : decodeAuth0 (replaceStr v "Bearer " "") = .ok claims)
    (hp : claims.permissions.contains "read:admin" = false) :
    admin_user_from_request_parts decodeAuth0 headers =
      .error (401, "invalid permissions")
    ∧ admin_user_from_request_parts decodeAuth0 [] =
      .error (401, "No auth token") := by
  constructor
  · simp [admin_user_from_request_parts, hv, hb, hd, hp]
    simpa using hp
  · simp [admin_user_from_request_parts, headerGet]

/-! ## Witnesses -/

/-- Witness for C1 at a filter mixing a suffixed and an equality key with an
owner id, and at an equality-only filter for the count conjunct. -/
theorem C1_witness :
    (read "TestObjects"
        [("age_gt", FieldValue.INTEGER 29), ("name", FieldValue.STRING "John")]
        (some "alice")).query =
      "SELECT * FROM TestObjects WHERE user_id = $1 AND age > $2 AND name = $3 ORDER BY id DESC"
    ∧ (read "TestObjects"
        [("age_gt", FieldValue.INTEGER 29), ("name", FieldValue.STRING "John")]
        (some "alice")).bindings =
      [FieldValue.STRING "alice", FieldValue.INTEGER 29, FieldValue.STRING "John"]
    ∧ (ownerPredList (some "alice") ++
        fieldPredList
          (nonRes [("name", FieldValue.STRING "John"), ("age", FieldValue.INTEGER 30)])
          (startIdx (some "alice"))).length = 3 := by
  have h := C1_select_owner_first_params_in_order "TestObjects"
      [("age_gt", FieldValue.INTEGER 29), ("name", FieldValue.STRING "John")]
      (some "alice") (Or.inr rfl)
  have h2 := C1_select_owner_first_params_in_order "TestObjects"
      [("name", FieldValue.STRING "John"), ("age", FieldValue.INTEGER 30)]
      (some "alice") (Or.inr rfl)
  exact ⟨h.1.trans (by decide), h.2.1.trans (by decide),
    (h2.2.2.2.2 (by decide) (by decide)).1.trans (by decide)⟩

/-- Witness for the amended C2 at suffixed and equality keys. -/
theorem C2_witness :
    (read "items" [("age" ++ "_gt", FieldValue.INTEGER 30)] none).query =
      "SELECT * FROM items WHERE age > $1 ORDER BY id DESC"
    ∧ (read "items" [("id", FieldValue.UUID 7)] none).query =
      "SELECT * FROM items WHERE id = $1 ORDER BY id DESC" := by
  have h := C2_suffix_operator_mapping "items" "age" "id"
      (FieldValue.INTEGER 30) (FieldValue.UUID 7)
  exact ⟨h.1.trans (by decide), (h.2.2.2.2.1 (by decide)).trans (by decide)⟩

/-- Witness for the amended C3 at the repository's `?order_by=age` scenario
and a rejecting database. -/
theorem C3_witness :
    (read "TestObjects" [("order_by", FieldValue.STRING "age")] none).query =
      "SELECT * FROM TestObjects W ORDER BY age DESC"
    ∧ readExec (fun _ _ => (Except.error () : Except Unit (List Nat)))
        "TestObjects" [("order_by", FieldValue.STRING "age")] none =
      .error 500 := by
  have h := C3_no_predicate_truncates_where "TestObjects"
      [("order_by", FieldValue.STRING "age")] (by decide)
  exact ⟨h.1.trans (by decide), h.2 Nat (fun _ _ => .error ()) rfl⟩

/-- Witness for C4 at a filter carrying one field and both reserved keys. -/
theorem C4_witness :
    read "TestObjects"
        [("name", FieldValue.STRING "John"), ("order_by", FieldValue.STRING "age"),
         ("order_dir", FieldValue.STRING "asc")] none =
      { query := "SELECT * FROM TestObjects WHERE name = $1 ORDER BY age ASC",
        bindings := [FieldValue.STRING "John"],
        order_col := "age",
        order_dir := "ASC" }
    ∧ (read "TestObjects" [("name", FieldValue.STRING "John")] none).order_col = "id"
    ∧ (read "TestObjects" [("name", FieldValue.STRING "John")] none).order_dir = "DESC" := by
  have h := C4_reserved_keys_control_ordering "TestObjects" "age" "asc" none
      [("name", FieldValue.STRING "John")] [] (by decide) (by decide)
      (Or.inl (by decide))
  exact ⟨h.1.trans (by decide), h.2.1, h.2.2⟩

/-- Witness for C5 at a two-field update with an owner id. -/
theorem C5_witness :
    (update "TestObjects" 7
        [("name", FieldValue.STRING "John"), ("age", FieldValue.INTEGER 29)]
        (some "alice")).query =
      "UPDATE TestObjects SET name = $1, age = $2 WHERE id = $3 AND user_id = $4"
    ∧ (update "TestObjects" 7
        [("name", FieldValue.STRING "John"), ("age", FieldValue.INTEGER 29)]
        (some "alice")).bindings =
      [FieldValue.STRING "John", FieldValue.INTEGER 29, FieldValue.UUID 7,
       FieldValue.STRING "alice"] := by
  have h := C5_update_sets_then_id_then_owner "TestObjects" 7
      [("name", FieldValue.STRING "John"), ("age", FieldValue.INTEGER 29)]
      (some "alice") (by decide)
  exact ⟨h.1.trans (by decide), h.2.1.trans (by decide)⟩

/-- Witness for C7 at concrete ALL and OWNER configurations. -/
theorem C7_witness :
    _http_get_user_id_matched ⟨fun _ => .ALL, fun _ => false⟩ (some "alice") = none
    ∧ _http_put_user_id_matched ⟨fun _ => .OWNER, fun _ => false⟩ (some "alice") =
        some "alice"
    ∧ _http_delete_user_id_matched ⟨fun _ => .OWNER, fun _ => false⟩ none = none := by
  refine ⟨?_, ?_, ?_⟩
  · exact (C7_object_scope_owner_resolution ⟨fun _ => .ALL, fun _ => false⟩
      (some "alice") "alice").1 rfl
  · exact (C7_object_scope_owner_resolution ⟨fun _ => .OWNER, fun _ => false⟩
      (some "alice") "alice").2.2.2.2.1 rfl
  · exact (C7_object_scope_owner_resolution ⟨fun _ => .OWNER, fun _ => false⟩
      none "alice").2.2.2.2.2.2.2.2 rfl

/-- Witness for C8: a token with no key-id in its header (Auth0 pipeline) and
a token whose key-id matches no fetched key (Clerk pipeline) both land on the
`401` outcome. -/
theorem C8_witness :
    decode_auth0_token
      ⟨fun _ => .ok [], fun _ => .ok ⟨none⟩, fun _ _ => none,
       fun _ _ _ => .error .malformed⟩ "tok" "aud" "iss" = .error 401
    ∧ decode_clerk_token
      ⟨fun _ => .ok [], fun _ => .ok ⟨some "k"⟩, fun _ _ => none,
       fun _ _ _ => .error .invalidSignature⟩ "tok" "aud" "iss" = .error 401 := by
  have h := C8_verification_failures_uniform_401
      ⟨fun _ => .ok [], fun _ => .ok ⟨none⟩, fun _ _ => none,
       fun _ _ _ => .error .malformed⟩
      ⟨fun _ => .ok [], fun _ => .ok ⟨some "k"⟩, fun _ _ => none,
       fun _ _ _ => .error .invalidSignature⟩
      "tok" "aud" "iss" [] [] rfl rfl
  exact ⟨h.1 rfl, h.2.2.2.2.1 "k" rfl rfl⟩

/-- Witness for C9: a matching subscription token succeeds, and the absence
of a subscription header succeeds on the primary token alone. -/
theorem C9_witness :
    auth_user_from_request_parts (fun _ => .ok ⟨"user1"⟩)
        (fun _ => .ok ⟨"pro", "user1"⟩)
        [("Authorization", "Bearer A"), ("Subscription", "Bearer S")] =
      .ok ⟨"user1", "pro"⟩
    ∧ auth_user_from_request_parts (fun _ => .ok ⟨"user1"⟩)
        (fun _ => .ok ⟨"pro", "user1"⟩)
        [("Authorization", "Bearer A")] =
      .ok ⟨"user1", "none"⟩ := by
  have h := C9_subscription_token_binds_identity (fun _ => .ok ⟨"user1"⟩)
      (fun _ => .ok ⟨"pro", "user1"⟩)
      [("Authorization", "Bearer A"), ("Subscription", "Bearer S")]
      "Bearer A" "Bearer S" ⟨"user1"⟩ ⟨"pro", "user1"⟩ rfl (by decide) rfl
  have h2 := C9_subscription_token_binds_identity (fun _ => .ok ⟨"user1"⟩)
      (fun _ => .ok ⟨"pro", "user1"⟩) [("Authorization", "Bearer A")]
      "Bearer A" "x" ⟨"user1"⟩ ⟨"pro", "user1"⟩ rfl (by decide) rfl
  exact ⟨(h.2 rfl (by decide) (by decide) rfl).1 rfl, h2.1 rfl⟩

/-- Witness for C10: a decoded token with an empty permission list is
rejected with the same 401 status as a missing token. -/
theorem C10_witness :
    admin_user_from_request_parts (fun _ => .ok ⟨"u", "free", []⟩)
        [("Authorization", "Bearer T")] = .error (401, "invalid permissions")
    ∧ admin_user_from_request_parts (fun _ => .ok ⟨"u", "free", []⟩) [] =
      .error (401, "No auth token") := by
  have h := C10_admin_missing_permission_401 (fun _ => .ok ⟨"u", "free", []⟩)
      [("Authorization", "Bearer T")] "Bearer T" ⟨"u", "free", []⟩
      rfl (by decide) rfl (by decide)
  exact ⟨h.1, h.2⟩

end Janus
